import Mathlib

/-!
Verification of the NCF MovieLens quick-start notebook
(`examples/00_quick_start/ncf_movielens.ipynb`).

The notebook is a linear pipeline: download the MovieLens ratings table,
split it chronologically, filter the test set to users/items seen in
training, write both sets to CSV, build an NCF dataset and model (external
library), fit, predict over all unseen user-item pairs, and compute four
ranking metrics.  We embed the rows, the notebook's own cell logic, and
(where a library function is absent from this repository slice) a model of
the library call taken from the specification's description of it.
-/

namespace NCFMovieLens

/-- A ratings record as loaded in cell-8 with
header `userID, itemID, rating, timestamp`. -/
structure Row where
  userID : Nat
  itemID : Nat
  rating : ℚ
  timestamp : Nat
deriving DecidableEq, Repr

/-- A pandas DataFrame of ratings records, as an ordered list of rows. -/
abbrev DataFrame := List Row

/-- `train["userID"].unique()`: the distinct user identifiers of a frame,
in first-occurrence order. -/
def uniqueUsers (df : DataFrame) : List Nat :=
  (df.map Row.userID).dedup

/-- `train["itemID"].unique()`: the distinct item identifiers of a frame,
in first-occurrence order. -/
def uniqueItems (df : DataFrame) : List Nat :=
  (df.map Row.itemID).dedup

/-- Cell-12, first assignment:
`test = test[test["userID"].isin(train["userID"].unique())]`. -/
def filterTestUsers (train test : DataFrame) : DataFrame :=
  test.filter (fun r => decide (r.userID ∈ uniqueUsers train))

/-- Cell-12, second assignment:
`test = test[test["itemID"].isin(train["itemID"].unique())]`. -/
def filterTestItems (train test : DataFrame) : DataFrame :=
  test.filter (fun r => decide (r.itemID ∈ uniqueItems train))

/-- The combined effect of cell-12 on `test`: both filtering assignments
in sequence. -/
def filterTest (train test : DataFrame) : DataFrame :=
  filterTestItems train (filterTestUsers train test)

lemma mem_uniqueUsers {df : DataFrame} {u : Nat} :
    u ∈ uniqueUsers df ↔ u ∈ df.map Row.userID := by
  simp [uniqueUsers]

lemma mem_uniqueItems {df : DataFrame} {i : Nat} :
    i ∈ uniqueItems df ↔ i ∈ df.map Row.itemID := by
  simp [uniqueItems]

lemma filterTest_eq_filter (train test : DataFrame) :
    filterTest train test =
      test.filter (fun r =>
        decide (r.userID ∈ uniqueUsers train) &&
        decide (r.itemID ∈ uniqueItems train)) := by
  simp [filterTest, filterTestItems, filterTestUsers, List.filter_filter]
  congr 1
  funext r
  exact Bool.and_comm _ _

/-- **C1.** The cell-12 filter keeps exactly the test rows whose user and
item both occur in the training set, preserving their relative order:
every retained row has its user and item in `train`, every test row
satisfying both conditions is retained, and the result is a sublist of the
original `test` (hence relative order is unchanged). -/
theorem filterTest_spec (train test : DataFrame) :
    (∀ r ∈ filterTest train test,
        r.userID ∈ train.map Row.userID ∧ r.itemID ∈ train.map Row.itemID)
    ∧ (∀ r ∈ test,
        r.userID ∈ train.map Row.userID → r.itemID ∈ train.map Row.itemID →
          r ∈ filterTest train test)
    ∧ (filterTest train test).Sublist test := by
  refine ⟨?_, ?_, ?_⟩
  · intro r hr
    rw [filterTest_eq_filter] at hr
    have := List.of_mem_filter hr
    simp only [Bool.and_eq_true, decide_eq_true_eq] at this
    exact ⟨mem_uniqueUsers.mp this.1, mem_uniqueItems.mp this.2⟩
  · intro r hr hu hi
    rw [filterTest_eq_filter]
    refine List.mem_filter.mpr ⟨hr, ?_⟩
    simp only [Bool.and_eq_true, decide_eq_true_eq]
    exact ⟨mem_uniqueUsers.mpr hu, mem_uniqueItems.mpr hi⟩
  · rw [filterTest_eq_filter]
    exact List.filter_sublist _

/-- Concrete instantiation of `filterTest_spec`: a two-row train set and a
three-row test set where one test row has an unseen item. -/
theorem filterTest_spec_witness :
    (∀ r ∈ filterTest
        [⟨1, 10, 4, 100⟩, ⟨2, 11, 3, 101⟩]
        [⟨1, 11, 5, 200⟩, ⟨1, 12, 5, 201⟩, ⟨3, 10, 2, 202⟩],
        r.userID ∈ ([⟨1, 10, 4, 100⟩, ⟨2, 11, 3, 101⟩] : DataFrame).map Row.userID ∧
        r.itemID ∈ ([⟨1, 10, 4, 100⟩, ⟨2, 11, 3, 101⟩] : DataFrame).map Row.itemID)
    ∧ (∀ r ∈ ([⟨1, 11, 5, 200⟩, ⟨1, 12, 5, 201⟩, ⟨3, 10, 2, 202⟩] : DataFrame),
        r.userID ∈ ([⟨1, 10, 4, 100⟩, ⟨2, 11, 3, 101⟩] : DataFrame).map Row.userID →
        r.itemID ∈ ([⟨1, 10, 4, 100⟩, ⟨2, 11, 3, 101⟩] : DataFrame).map Row.itemID →
          r ∈ filterTest [⟨1, 10, 4, 100⟩, ⟨2, 11, 3, 101⟩]
            [⟨1, 11, 5, 200⟩, ⟨1, 12, 5, 201⟩, ⟨3, 10, 2, 202⟩])
    ∧ (filterTest [⟨1, 10, 4, 100⟩, ⟨2, 11, 3, 101⟩]
        [⟨1, 11, 5, 200⟩, ⟨1, 12, 5, 201⟩, ⟨3, 10, 2, 202⟩]).Sublist
        [⟨1, 11, 5, 200⟩, ⟨1, 12, 5, 201⟩, ⟨3, 10, 2, 202⟩] :=
  filterTest_spec _ _

/-- The notebook's variable state around cell-12: the downloaded frame
`df` (cell-8) and the split pair `train`, `test` (cell-10). -/
structure SplitState where
  df : DataFrame
  train : DataFrame
  test : DataFrame
deriving DecidableEq, Repr

/-- Cell-12 as a state transformer: the two assignments rebind only the
variable `test`. -/
def filterStep (s : SplitState) : SplitState :=
  { s with test := filterTest s.train s.test }

/-- **C9.** The test-set filtering step mutates only `test`: after cell-12
the `train` frame and the downloaded frame `df` are exactly unchanged, and
`test` holds the filtered frame. -/
theorem filterStep_frame (s : SplitState) :
    (filterStep s).train = s.train ∧ (filterStep s).df = s.df ∧
    (filterStep s).test = filterTest s.train s.test :=
  ⟨rfl, rfl, rfl⟩

/-! ### Configuration constants (cell-6) -/

/-- `TOP_K = 10`: top k items to recommend. -/
def TOP_K : Nat := 10

/-- `SEED = 42`: the single random seed of the notebook. -/
def SEED : Nat := 42

/-- `EPOCHS = 50`. -/
def EPOCHS : Nat := 50

/-- `BATCH_SIZE = 16384`. -/
def BATCH_SIZE : Nat := 16384

/-! ### Environment variables (cell-4) -/

/-- A process environment: a total map from variable names to optional
values, as `os.environ` behaves for lookup. -/
def Env : Type := String → Option String

/-- `os.environ[k] = v`: point update of the environment. -/
def setEnv (env : Env) (k v : String) : Env :=
  fun k' => if k' = k then some v else env k'

/-- The effect of the notebook's cell numbered `i` on the environment.
Only cell-4 runs `os.environ["CUDA_VISIBLE_DEVICES"] = "0"`; no other cell
touches `os.environ`. -/
def cellEnvEffect (i : Nat) (env : Env) : Env :=
  if i = 4 then setEnv env "CUDA_VISIBLE_DEVICES" "0" else env

/-- The environment after the first `n` cells (cells `0, …, n-1`) of the
notebook have executed, starting from `env`. -/
def envAfterCells (n : Nat) (env : Env) : Env :=
  (List.range n).foldl (fun e i => cellEnvEffect i e) env

/-- The index of the cell that constructs the NCF model (cell-18). -/
def modelCell : Nat := 18

lemma envAfterCells_succ (n : Nat) (env : Env) :
    envAfterCells (n + 1) env = cellEnvEffect n (envAfterCells n env) := by
  simp [envAfterCells, List.range_succ]

lemma envAfterCells_other {k : String} (hk : k ≠ "CUDA_VISIBLE_DEVICES")
    (n : Nat) (env : Env) : envAfterCells n env k = env k := by
  induction n with
  | zero => simp [envAfterCells]
  | succ n ih =>
      rw [envAfterCells_succ]
      unfold cellEnvEffect
      split
      · simp [setEnv, hk, ih]
      · exact ih

/-- **C7.** Cell-4 sets exactly one environment variable: after the first
five cells (so in particular before the model construction in cell-18)
`CUDA_VISIBLE_DEVICES` is `"0"`, and every other variable is unchanged by
the whole notebook, whatever prefix of cells has run. -/
theorem env_effect_spec (env : Env) :
    (∀ n, 5 ≤ n → envAfterCells n env "CUDA_VISIBLE_DEVICES" = some "0")
    ∧ (5 ≤ modelCell)
    ∧ (∀ k, k ≠ "CUDA_VISIBLE_DEVICES" → ∀ n, envAfterCells n env k = env k) := by
  refine ⟨?_, by simp [modelCell], fun k hk n => envAfterCells_other hk n env⟩
  intro n hn
  induction n with
  | zero => omega
  | succ n ih =>
      rw [envAfterCells_succ]
      unfold cellEnvEffect
      split
      · simp [setEnv]
      · rename_i h
        have h5 : 5 ≤ n := by omega
        exact ih h5

/-- Concrete instantiation of `env_effect_spec` on the empty environment:
after all 27 cells the device variable is `"0"` and `"PATH"` is untouched. -/
theorem env_effect_spec_witness :
    envAfterCells 27 (fun _ => none) "CUDA_VISIBLE_DEVICES" = some "0"
    ∧ envAfterCells 27 (fun _ => none) "PATH" = none :=
  ⟨(env_effect_spec (fun _ => none)).1 27 (by omega),
   (env_effect_spec (fun _ => none)).2.2 "PATH" (by decide) 27⟩

/-! ### Result recording (cell-24 and cell-25) -/

/-- An observable output of the evaluation cells: a printed metric line or
a scrapbook `sb.glue` record. -/
inductive OutputEvent where
  | printed (label : String) (value : ℚ)
  | glued (key : String) (value : ℚ)
deriving DecidableEq, Repr

/-- Cell-24's unconditional `print` of the four ranking metrics. -/
def printMetrics (m n p r : ℚ) : List OutputEvent :=
  [.printed "MAP:" m, .printed "NDCG:" n,
   .printed "Precision@K:" p, .printed "Recall@K:" r]

/-- Cell-25's `sb.glue` calls: the six recorded key/value pairs. -/
def glueResults (m n p r tt te : ℚ) : List OutputEvent :=
  [.glued "map" m, .glued "ndcg" n, .glued "precision" p, .glued "recall" r,
   .glued "train_time" tt, .glued "test_time" te]

/-- Cells 24–25 in order: print the four metrics, then glue the six values
only when `is_jupyter()` holds. -/
def evaluationOutput (isJupyter : Bool) (m n p r tt te : ℚ) :
    List OutputEvent :=
  printMetrics m n p r ++
    (if isJupyter then glueResults m n p r tt te else [])

/-- The keys recorded by glue events, in order. -/
def gluedKeys (out : List OutputEvent) : List String :=
  out.filterMap (fun e =>
    match e with
    | .glued k _ => some k
    | .printed _ _ => none)

/-- **C8.** Structured recording is optional and conditioned on the
notebook environment: the six values are glued exactly when `is_jupyter()`
returns true (otherwise no glue event occurs), and the four ranking
metrics are printed unconditionally beforehand — the output always starts
with the four printed metric lines. -/
theorem evaluationOutput_spec (isJupyter : Bool) (m n p r tt te : ℚ) :
    gluedKeys (evaluationOutput isJupyter m n p r tt te) =
      (if isJupyter then
        ["map", "ndcg", "precision", "recall", "train_time", "test_time"]
       else [])
    ∧ (evaluationOutput isJupyter m n p r tt te).take 4 = printMetrics m n p r
    ∧ (evaluationOutput false m n p r tt te = printMetrics m n p r) := by
  cases isJupyter <;>
    simp [evaluationOutput, gluedKeys, printMetrics, glueResults]

/-! ### CSV files (cell-8 and cell-14) -/

/-- The column header the notebook passes to `movielens.load_pandas_df`
in cell-8. -/
def ratingsHeader : List String :=
  ["userID", "itemID", "rating", "timestamp"]

/-- The four fields of one CSV data record, in column order.  With
`index=False` no index field is prepended. -/
def rowFields (r : Row) : List String :=
  [toString r.userID, toString r.itemID, toString r.rating,
   toString r.timestamp]

/-- `df.to_csv(file, index=False)` at field granularity: the header record
followed by one four-field record per row, with no index column. -/
def toCsvTable (df : DataFrame) : List (List String) :=
  ratingsHeader :: df.map rowFields

/-- **C6.** The CSV files the notebook writes have exactly the columns
`userID, itemID, rating, timestamp` and no index column: the first record
of `to_csv` output is that header, every record has exactly four fields,
and there is one data record per row of the frame. -/
theorem toCsvTable_spec (df : DataFrame) :
    (toCsvTable df).head? = some ["userID", "itemID", "rating", "timestamp"]
    ∧ (∀ rec ∈ toCsvTable df, rec.length = 4)
    ∧ (toCsvTable df).length = df.length + 1 := by
  refine ⟨rfl, ?_, by simp [toCsvTable]⟩
  intro rec hrec
  rcases List.mem_cons.mp hrec with h | h
  · subst h; simp [ratingsHeader]
  · obtain ⟨r, -, rfl⟩ := List.mem_map.mp h
    simp [rowFields]

/-- Concrete instantiation of `toCsvTable_spec` on a one-row frame. -/
theorem toCsvTable_spec_witness :
    (toCsvTable [⟨1, 2, 3, 4⟩]).head? =
      some ["userID", "itemID", "rating", "timestamp"]
    ∧ (∀ rec ∈ toCsvTable [⟨1, 2, 3, 4⟩], rec.length = 4)
    ∧ (toCsvTable [⟨1, 2, 3, 4⟩]).length = 1 + 1 :=
  toCsvTable_spec _

/-! ### Error propagation (the whole notebook as a linear pipeline) -/

/-- Run a list of fallible steps from an accumulated result: once a step
fails, the remaining steps are skipped.  There is no exception handler
anywhere in the notebook. -/
def runFrom {σ ε : Type} (acc : Except ε σ) (steps : List (σ → Except ε σ)) :
    Except ε σ :=
  steps.foldl (fun a step => a.bind step) acc

/-- Run a list of fallible steps from an initial state. -/
def runSteps {σ ε : Type} (steps : List (σ → Except ε σ)) (s : σ) :
    Except ε σ :=
  runFrom (Except.ok s) steps

/-- The ten externally fallible stages of the notebook, in cell order:
download (cell-8), chronological split (cell-10), test filtering (cell-12),
CSV writing (cell-14), `NCFDataset` construction (cell-16), `NCF`
construction (cell-18), `model.fit` (cell-19), prediction (cell-21),
metric evaluation (cell-24), result recording (cell-25). -/
structure NotebookSteps (ε σ : Type) where
  download : σ → Except ε σ
  chronoSplitStep : σ → Except ε σ
  filterCells : σ → Except ε σ
  writeCsv : σ → Except ε σ
  buildDataset : σ → Except ε σ
  buildModel : σ → Except ε σ
  fitModel : σ → Except ε σ
  predictStep : σ → Except ε σ
  evaluateStep : σ → Except ε σ
  recordStep : σ → Except ε σ

/-- The notebook's cells as the ordered list of its ten stages. -/
def notebookPipeline {ε σ : Type} (st : NotebookSteps ε σ) :
    List (σ → Except ε σ) :=
  [st.download, st.chronoSplitStep, st.filterCells, st.writeCsv,
   st.buildDataset, st.buildModel, st.fitModel, st.predictStep,
   st.evaluateStep, st.recordStep]

/-- Executing the notebook top to bottom. -/
def runNotebook {ε σ : Type} (st : NotebookSteps ε σ) (s : σ) : Except ε σ :=
  runSteps (notebookPipeline st) s

lemma runFrom_error {σ ε : Type} (e : ε)
    (steps : List (σ → Except ε σ)) :
    runFrom (Except.error e) steps = Except.error e := by
  induction steps with
  | nil => rfl
  | cons f fs ih => simpa [runFrom, Except.bind] using ih

lemma runFrom_append {σ ε : Type} (acc : Except ε σ)
    (l₁ l₂ : List (σ → Except ε σ)) :
    runFrom acc (l₁ ++ l₂) = runFrom (runFrom acc l₁) l₂ :=
  List.foldl_append _ _ _ _

/-- **C5.** No operation in the notebook catches or transforms a failure:
if the first `i` stages succeed and stage `i` raises `e`, the whole run
ends with exactly `e`, and no later stage executes — the outcome is the
same for any notebook whose first `i+1` stages agree, whatever its later
stages do. -/
theorem notebook_error_propagation {σ ε : Type} (st : NotebookSteps ε σ)
    (s s' : σ) (e : ε) (i : Nat) (hi : i < (notebookPipeline st).length)
    (hok : runSteps ((notebookPipeline st).take i) s = Except.ok s')
    (herr : (notebookPipeline st).get ⟨i, hi⟩ s' = Except.error e) :
    runNotebook st s = Except.error e ∧
    ∀ st' : NotebookSteps ε σ,
      (notebookPipeline st').take (i + 1) = (notebookPipeline st).take (i + 1) →
        runNotebook st' s = Except.error e := by
  have hstep : runSteps ((notebookPipeline st).take (i + 1)) s =
      Except.error e := by
    have hok' : runFrom (Except.ok s) ((notebookPipeline st).take i) =
        Except.ok s' := hok
    unfold runSteps
    rw [List.take_succ, List.getElem?_eq_getElem hi, runFrom_append, hok']
    simpa [runFrom, Except.bind, Option.toList, List.get_eq_getElem]
      using herr
  have main : runNotebook st s = Except.error e := by
    unfold runNotebook runSteps
    rw [← List.take_append_drop (i + 1) (notebookPipeline st), runFrom_append]
    rw [show runFrom (Except.ok s) ((notebookPipeline st).take (i + 1)) =
          Except.error e from hstep]
    exact runFrom_error _ _
  refine ⟨main, ?_⟩
  intro st' hagree
  unfold runNotebook runSteps
  rw [← List.take_append_drop (i + 1) (notebookPipeline st'), runFrom_append,
    hagree]
  rw [show runFrom (Except.ok s) ((notebookPipeline st).take (i + 1)) =
        Except.error e from hstep]
  exact runFrom_error _ _

/-- A concrete run for `notebook_error_propagation`: the first six stages
succeed (each incrementing a counter), `model.fit` is interrupted, and the
interruption is the final outcome. -/
def demoSteps : NotebookSteps String Nat :=
  ⟨fun n => .ok (n + 1), fun n => .ok (n + 1), fun n => .ok (n + 1),
   fun n => .ok (n + 1), fun n => .ok (n + 1), fun n => .ok (n + 1),
   fun _ => .error "KeyboardInterrupt", fun n => .ok (n + 1),
   fun n => .ok (n + 1), fun n => .ok (n + 1)⟩

/-- Concrete instantiation of `notebook_error_propagation`: the
interrupted `fit` at stage 6 aborts the demo run with its own error. -/
theorem notebook_error_propagation_witness :
    runNotebook demoSteps 0 = Except.error "KeyboardInterrupt" :=
  (notebook_error_propagation demoSteps 0 6 "KeyboardInterrupt" 6
    (by simp [notebookPipeline]) rfl rfl).1

/-! ### Prediction construction (cell-21) -/

/-- One row of the `all_predictions` frame: a user, an item and the
model's score for the pair. -/
structure PredRow where
  userID : Nat
  itemID : Nat
  prediction : ℚ
deriving DecidableEq, Repr

/-- Cell-21's nested loop: for every user of `train.userID.unique()` and
every item of `train.itemID.unique()`, one prediction row, items iterated
within each user. -/
def rawPredictions (train : DataFrame) (pred : Nat → Nat → ℚ) :
    List PredRow :=
  (uniqueUsers train).flatMap (fun u =>
    (uniqueItems train).map (fun i => ⟨u, i, pred u i⟩))

/-- The rating the outer merge on `["userID", "itemID"]` attaches to a
prediction row: the rating of the first matching train row, `none` (NaN)
when the pair does not occur in `train`. -/
def mergedRating (train : DataFrame) (p : PredRow) : Option ℚ :=
  (train.find? (fun r => r.userID == p.userID && r.itemID == p.itemID)).map
    Row.rating

/-- `all_predictions = merged[merged.rating.isnull()].drop('rating', axis=1)`:
keep exactly the prediction rows whose merged rating is null. -/
def allPredictions (train : DataFrame) (pred : Nat → Nat → ℚ) :
    List PredRow :=
  (rawPredictions train pred).filter
    (fun p => (mergedRating train p).isNone)

/-- The (user, item) pairs of a ratings frame, in row order. -/
def trainPairs (train : DataFrame) : List (Nat × Nat) :=
  train.map (fun r => (r.userID, r.itemID))

/-- The (user, item) pairs of a prediction frame, in row order. -/
def predPairs (ps : List PredRow) : List (Nat × Nat) :=
  ps.map (fun p => (p.userID, p.itemID))

lemma mergedRating_isNone_iff (train : DataFrame) (p : PredRow) :
    (mergedRating train p).isNone = true ↔
      (p.userID, p.itemID) ∉ trainPairs train := by
  unfold mergedRating trainPairs
  rw [Option.isNone_iff_eq_none, Option.map_eq_none', List.find?_eq_none]
  constructor
  · intro h hmem
    obtain ⟨r, hr, hpair⟩ := List.mem_map.mp hmem
    have := h r hr
    simp only [Bool.and_eq_true, beq_iff_eq] at this
    exact this ⟨congrArg Prod.fst hpair, congrArg Prod.snd hpair⟩
  · intro h r hr hmatch
    simp only [Bool.and_eq_true, beq_iff_eq] at hmatch
    exact h (List.mem_map.mpr ⟨r, hr, by simp [hmatch.1, hmatch.2]⟩)

lemma predPairs_rawPredictions (train : DataFrame) (pred : Nat → Nat → ℚ) :
    predPairs (rawPredictions train pred) =
      (uniqueUsers train) ×ˢ (uniqueItems train) := by
  unfold predPairs rawPredictions
  rw [List.map_flatMap]
  show _ = (uniqueUsers train).flatMap
    (fun a => (uniqueItems train).map (Prod.mk a))
  congr 1
  funext a
  rw [List.map_map]
  rfl

lemma predPairs_allPredictions (train : DataFrame) (pred : Nat → Nat → ℚ) :
    predPairs (allPredictions train pred) =
      ((uniqueUsers train) ×ˢ (uniqueItems train)).filter
        (fun pr => decide (pr ∉ trainPairs train)) := by
  have hfun : (fun p : PredRow => (mergedRating train p).isNone) =
      (fun pr : Nat × Nat => decide (pr ∉ trainPairs train)) ∘
        (fun p : PredRow => (p.userID, p.itemID)) := by
    funext p
    simp only [Function.comp_apply]
    by_cases hmem : (p.userID, p.itemID) ∈ trainPairs train
    · have hne : ¬ (mergedRating train p).isNone = true := fun h =>
        (mergedRating_isNone_iff train p).mp h hmem
      simp only [Bool.not_eq_true] at hne
      simp [hne, hmem]
    · have hyes : (mergedRating train p).isNone = true :=
        (mergedRating_isNone_iff train p).mpr hmem
      simp [hyes, hmem]
  unfold allPredictions predPairs
  rw [hfun, ← List.filter_map]
  change List.filter _ (predPairs (rawPredictions train pred)) = _
  rw [predPairs_rawPredictions]

lemma count_pair_instances_eq (a : ℕ × ℕ) (l : List (ℕ × ℕ)) :
    @List.count _ instBEqProd a l =
      @List.count _ instBEqOfDecidableEq a l := by
  induction l with
  | nil => rfl
  | cons b l ih =>
      rcases a with ⟨a1, a2⟩
      rcases b with ⟨b1, b2⟩
      by_cases hba : (b1, b2) = (a1, a2) <;>
        simp_all [List.count_cons, BEq.beq, Prod.ext_iff]

/-- **C4.** The `all_predictions` frame handed to the evaluators contains
no (user, item) pair occurring in `train`, every row of it pairs a train
user with a train item, and it contains exactly one row for each pair of
(unique train users) × (unique train items) not occurring in `train`. -/
theorem allPredictions_spec (train : DataFrame) (pred : Nat → Nat → ℚ) :
    (∀ p ∈ allPredictions train pred,
        (p.userID, p.itemID) ∉ trainPairs train)
    ∧ (∀ p ∈ allPredictions train pred,
        p.userID ∈ uniqueUsers train ∧ p.itemID ∈ uniqueItems train)
    ∧ (∀ u ∈ uniqueUsers train, ∀ i ∈ uniqueItems train,
        (u, i) ∉ trainPairs train →
          (predPairs (allPredictions train pred)).count (u, i) = 1) := by
  refine ⟨?_, ?_, ?_⟩
  · intro p hp
    have := List.of_mem_filter hp
    exact (mergedRating_isNone_iff train p).mp this
  · intro p hp
    have hraw : p ∈ rawPredictions train pred := List.mem_of_mem_filter hp
    have : (p.userID, p.itemID) ∈ predPairs (rawPredictions train pred) :=
      List.mem_map.mpr ⟨p, hraw, rfl⟩
    rw [predPairs_rawPredictions] at this
    exact List.mem_product.mp this
  · intro u hu i hi hunseen
    rw [predPairs_allPredictions]
    have hmem : (u, i) ∈ (uniqueUsers train) ×ˢ (uniqueItems train) :=
      List.mem_product.mpr ⟨hu, hi⟩
    have hnodup : ((uniqueUsers train) ×ˢ (uniqueItems train)).Nodup :=
      List.Nodup.product (List.nodup_dedup _) (List.nodup_dedup _)
    have hpred : (decide ((u, i) ∉ trainPairs train)) = true := by
      simpa using hunseen
    have hcf := @List.count_filter (Nat × Nat) _ _
      (fun pr => decide (pr ∉ trainPairs train)) (u, i)
      ((uniqueUsers train) ×ˢ (uniqueItems train)) hpred
    rw [hcf, count_pair_instances_eq]
    exact List.count_eq_one_of_mem hnodup hmem

/-- Concrete instantiation of `allPredictions_spec`: a two-row train set
whose prediction grid has four pairs, one of them seen. -/
theorem allPredictions_spec_witness :
    (∀ p ∈ allPredictions [⟨1, 10, 4, 100⟩, ⟨2, 11, 3, 101⟩] (fun u i => u + i),
        (p.userID, p.itemID) ∉ trainPairs [⟨1, 10, 4, 100⟩, ⟨2, 11, 3, 101⟩])
    ∧ (∀ p ∈ allPredictions [⟨1, 10, 4, 100⟩, ⟨2, 11, 3, 101⟩] (fun u i => u + i),
        p.userID ∈ uniqueUsers [⟨1, 10, 4, 100⟩, ⟨2, 11, 3, 101⟩] ∧
        p.itemID ∈ uniqueItems [⟨1, 10, 4, 100⟩, ⟨2, 11, 3, 101⟩])
    ∧ (∀ u ∈ uniqueUsers [⟨1, 10, 4, 100⟩, ⟨2, 11, 3, 101⟩],
        ∀ i ∈ uniqueItems [⟨1, 10, 4, 100⟩, ⟨2, 11, 3, 101⟩],
        (u, i) ∉ trainPairs [⟨1, 10, 4, 100⟩, ⟨2, 11, 3, 101⟩] →
          (predPairs (allPredictions [⟨1, 10, 4, 100⟩, ⟨2, 11, 3, 101⟩]
            (fun u i => u + i))).count (u, i) = 1) :=
  allPredictions_spec _ _

/-! ### Chronological split (cell-10)

`python_chrono_split` comes from `recommenders.datasets.python_splitters`,
which is not part of this repository slice; the definitions below are a
model of it built from the specification's description. -/

/-- The rows of one user, in frame order. -/
def userRows (df : DataFrame) (u : Nat) : DataFrame :=
  df.filter (fun r => r.userID == u)

/-- Modelled from the spec: `python_chrono_split` is absent from this
slice; per the spec "approximately the 0.75 fraction of each user's
records" go to train, rendered as rounding `ratio * n` to the nearest
integer. -/
def chronoTrainSize (ratio : ℚ) (n : Nat) : Nat :=
  ⌊ratio * n + 1 / 2⌋₊

/-- Modelled from the spec: one user's records ordered by timestamp
(stable sort, so equal timestamps keep frame order). -/
def chronoSortedUser (df : DataFrame) (u : Nat) : DataFrame :=
  (userRows df u).mergeSort (fun a b => decide (a.timestamp ≤ b.timestamp))

/-- Modelled from the spec: the chronologically earliest
`chronoTrainSize` records of one user. -/
def chronoTrainUser (ratio : ℚ) (df : DataFrame) (u : Nat) : DataFrame :=
  (chronoSortedUser df u).take (chronoTrainSize ratio (userRows df u).length)

/-- Modelled from the spec: the remaining, chronologically later records
of one user. -/
def chronoTestUser (ratio : ℚ) (df : DataFrame) (u : Nat) : DataFrame :=
  (chronoSortedUser df u).drop (chronoTrainSize ratio (userRows df u).length)

/-- Modelled from the spec: `python_chrono_split(df, ratio)` partitions
the records into train/test sets by timestamp order within each user. -/
def python_chrono_split (df : DataFrame) (ratio : ℚ) :
    DataFrame × DataFrame :=
  ((uniqueUsers df).flatMap (chronoTrainUser ratio df),
   (uniqueUsers df).flatMap (chronoTestUser ratio df))

lemma sum_map_add_distrib {α : Type} (l : List α) (f g : α → Nat) :
    (l.map fun x => f x + g x).sum = (l.map f).sum + (l.map g).sum := by
  induction l with
  | nil => rfl
  | cons b l ih => simp [ih]; ring

lemma sum_map_single {α : Type} [DecidableEq α] {l : List α} (hl : l.Nodup)
    (f : α → Nat) (a : α) (ha : a ∈ l) (h0 : ∀ b ∈ l, b ≠ a → f b = 0) :
    (l.map f).sum = f a := by
  induction l with
  | nil => cases ha
  | cons b l ih =>
      rcases List.mem_cons.mp ha with rfl | ha'
      · have hz : ∀ c ∈ l, f c = 0 := by
          intro c hc
          refine h0 c (List.mem_cons_of_mem _ hc) ?_
          rintro rfl
          exact (List.nodup_cons.mp hl).1 hc
        have : (l.map f).sum = 0 := List.sum_eq_zero (by
          intro x hx
          obtain ⟨c, hc, rfl⟩ := List.mem_map.mp hx
          exact hz c hc)
        simp [this]
      · have hb : f b = 0 := h0 b (List.mem_cons_self b l) (by
          rintro rfl
          exact (List.nodup_cons.mp hl).1 ha')
        have := ih (List.nodup_cons.mp hl).2 ha'
          (fun c hc hcne => h0 c (List.mem_cons_of_mem _ hc) hcne)
        simp [hb, this]

lemma count_userRows (df : DataFrame) (u : Nat) (r : Row) :
    List.count r (userRows df u) =
      if r.userID = u then List.count r df else 0 := by
  by_cases h : r.userID = u
  · rw [if_pos h]
    exact List.count_filter (by simp [h])
  · rw [if_neg h]
    refine List.count_eq_zero_of_not_mem ?_
    intro hmem
    exact h (by simpa using List.of_mem_filter hmem)

lemma count_train_add_test_user (ratio : ℚ) (df : DataFrame) (u : Nat)
    (r : Row) :
    List.count r (chronoTrainUser ratio df u) +
      List.count r (chronoTestUser ratio df u) =
      List.count r (userRows df u) := by
  unfold chronoTrainUser chronoTestUser
  rw [← List.count_append, List.take_append_drop]
  exact (List.mergeSort_perm _ _).count_eq r

lemma count_chrono_split (df : DataFrame) (ratio : ℚ) (r : Row) :
    List.count r ((python_chrono_split df ratio).1 ++
      (python_chrono_split df ratio).2) = List.count r df := by
  unfold python_chrono_split
  rw [List.count_append, List.count_flatMap, List.count_flatMap,
    ← sum_map_add_distrib]
  have hcongr : (uniqueUsers df).map
      (fun x => (List.count r ∘ chronoTrainUser ratio df) x +
        (List.count r ∘ chronoTestUser ratio df) x) =
      (uniqueUsers df).map
        (fun u => if r.userID = u then List.count r df else 0) := by
    refine List.map_congr_left ?_
    intro u _
    simp only [Function.comp_apply]
    rw [count_train_add_test_user, count_userRows]
  rw [hcongr]
  by_cases hr : r ∈ df
  · have ha : r.userID ∈ uniqueUsers df :=
      mem_uniqueUsers.mpr (List.mem_map.mpr ⟨r, hr, rfl⟩)
    have hnodup : (uniqueUsers df).Nodup := List.nodup_dedup _
    have hsum := sum_map_single hnodup
      (fun u => if r.userID = u then List.count r df else 0) r.userID ha
      (fun b _ hb => if_neg (fun hc => hb hc.symm))
    rw [hsum]
    simp
  · have hc0 : List.count r df = 0 := List.count_eq_zero.mpr hr
    rw [hc0]
    exact List.sum_eq_zero (by
      intro x hx
      obtain ⟨u, _, rfl⟩ := List.mem_map.mp hx
      by_cases h : r.userID = u <;> simp [h, hc0])

lemma userID_of_mem_chronoSorted {df : DataFrame} {u : Nat} {r : Row}
    (h : r ∈ chronoSortedUser df u) : r.userID = u := by
  unfold chronoSortedUser at h
  have hm : r ∈ userRows df u := (List.mergeSort_perm _ _).mem_iff.mp h
  simpa using List.of_mem_filter hm

lemma mem_train_self {df : DataFrame} {ratio : ℚ} {r : Row}
    (h : r ∈ (python_chrono_split df ratio).1) :
    r ∈ chronoTrainUser ratio df r.userID := by
  obtain ⟨u, -, hu⟩ := List.mem_flatMap.mp h
  have : r ∈ chronoSortedUser df u :=
    (List.take_sublist _ _).subset hu
  have := userID_of_mem_chronoSorted this
  subst this
  exact hu

lemma mem_test_self {df : DataFrame} {ratio : ℚ} {r : Row}
    (h : r ∈ (python_chrono_split df ratio).2) :
    r ∈ chronoTestUser ratio df r.userID := by
  obtain ⟨u, -, hu⟩ := List.mem_flatMap.mp h
  have : r ∈ chronoSortedUser df u :=
    (List.drop_sublist _ _).subset hu
  have := userID_of_mem_chronoSorted this
  subst this
  exact hu

lemma chronoSorted_pairwise (df : DataFrame) (u : Nat) :
    List.Pairwise
      (fun a b : Row => (decide (a.timestamp ≤ b.timestamp)) = true)
      (chronoSortedUser df u) :=
  List.sorted_mergeSort
    (by
      intro a b c hab hbc
      simp only [decide_eq_true_eq] at *
      exact le_trans hab hbc)
    (by
      intro a b
      simpa using Nat.le_total a.timestamp b.timestamp)
    _

lemma train_le_test_user (ratio : ℚ) (df : DataFrame) (u : Nat)
    {r s : Row} (hr : r ∈ chronoTrainUser ratio df u)
    (hs : s ∈ chronoTestUser ratio df u) : r.timestamp ≤ s.timestamp := by
  unfold chronoTrainUser at hr
  unfold chronoTestUser at hs
  have hp := chronoSorted_pairwise df u
  rw [← List.take_append_drop
    (chronoTrainSize ratio (userRows df u).length)
    (chronoSortedUser df u)] at hp
  have := (List.pairwise_append.mp hp).2.2 r hr s hs
  simpa using this

lemma chronoTrainSize_le (n : Nat) : chronoTrainSize (3 / 4) n ≤ n := by
  unfold chronoTrainSize
  have h : ((3 : ℚ) / 4) * n + 1 / 2 < (n : ℚ) + 1 := by
    have : (0 : ℚ) ≤ n := Nat.cast_nonneg n
    linarith
  have := (Nat.floor_lt (by positivity)).mpr
    (show ((3 : ℚ) / 4) * n + 1 / 2 < ((n + 1 : Nat) : ℚ) by push_cast; linarith)
  omega

lemma chronoTrainSize_approx (n : Nat) :
    3 * n ≤ 4 * chronoTrainSize (3 / 4) n + 1 ∧
      4 * chronoTrainSize (3 / 4) n ≤ 3 * n + 2 := by
  unfold chronoTrainSize
  have h0 : (0 : ℚ) ≤ (3 : ℚ) / 4 * n + 1 / 2 := by positivity
  have hlow := Nat.floor_le h0
  have hhigh := Nat.lt_floor_add_one ((3 : ℚ) / 4 * n + 1 / 2)
  constructor
  · have hq : (3 * n : ℚ) < 4 * (⌊(3 : ℚ) / 4 * n + 1 / 2⌋₊ : ℚ) + 2 := by
      linarith
    have hn : 3 * n < 4 * ⌊(3 : ℚ) / 4 * n + 1 / 2⌋₊ + 2 := by
      exact_mod_cast hq
    omega
  · have hq : (4 : ℚ) * (⌊(3 : ℚ) / 4 * n + 1 / 2⌋₊ : ℚ) ≤ 3 * n + 2 := by
      linarith
    exact_mod_cast hq

lemma chronoUser_lengths (df : DataFrame) (u : Nat) :
    (chronoTrainUser (3 / 4) df u).length =
      chronoTrainSize (3 / 4) (userRows df u).length ∧
    (chronoTrainUser (3 / 4) df u).length +
      (chronoTestUser (3 / 4) df u).length = (userRows df u).length := by
  have hlen : (chronoSortedUser df u).length = (userRows df u).length :=
    (List.mergeSort_perm _ _).length_eq
  have hk := chronoTrainSize_le (userRows df u).length
  constructor
  · unfold chronoTrainUser
    rw [List.length_take, hlen]
    omega
  · unfold chronoTrainUser chronoTestUser
    rw [List.length_take, List.length_drop, hlen]
    omega

/-- **C2.** `python_chrono_split(df, 0.75)` partitions the records by
timestamp rather than randomly: the two outputs together are a
permutation of the input (each record is assigned to exactly one side),
within each user every training timestamp is at most every test
timestamp, and each user sends approximately three quarters of their
records to train (within half a record of the exact 0.75 fraction). -/
theorem python_chrono_split_spec (df : DataFrame) :
    ((python_chrono_split df (3 / 4)).1 ++
        (python_chrono_split df (3 / 4)).2).Perm df
    ∧ (∀ r ∈ (python_chrono_split df (3 / 4)).1,
        ∀ s ∈ (python_chrono_split df (3 / 4)).2,
          r.userID = s.userID → r.timestamp ≤ s.timestamp)
    ∧ (∀ u ∈ uniqueUsers df,
        (chronoTrainUser (3 / 4) df u).length +
            (chronoTestUser (3 / 4) df u).length =
          (userRows df u).length ∧
        3 * (userRows df u).length ≤
            4 * (chronoTrainUser (3 / 4) df u).length + 1 ∧
        4 * (chronoTrainUser (3 / 4) df u).length ≤
          3 * (userRows df u).length + 2) := by
  refine ⟨?_, ?_, ?_⟩
  · exact List.perm_iff_count.mpr (fun r => count_chrono_split df (3 / 4) r)
  · intro r hr s hs huser
    have hr' := mem_train_self hr
    have hs' := mem_test_self hs
    rw [huser] at hr'
    exact train_le_test_user (3 / 4) df s.userID hr' hs'
  · intro u _
    have hl := chronoUser_lengths df u
    have ha := chronoTrainSize_approx (userRows df u).length
    refine ⟨hl.2, ?_, ?_⟩
    · rw [hl.1]; exact ha.1
    · rw [hl.1]; exact ha.2

/-- Concrete instantiation of `python_chrono_split_spec` on a five-row
frame with two users and out-of-order timestamps. -/
theorem python_chrono_split_spec_witness :
    ((python_chrono_split
        [⟨1, 10, 4, 5⟩, ⟨1, 11, 5, 2⟩, ⟨2, 20, 3, 7⟩, ⟨1, 12, 2, 9⟩,
         ⟨2, 21, 1, 1⟩] (3 / 4)).1 ++
      (python_chrono_split
        [⟨1, 10, 4, 5⟩, ⟨1, 11, 5, 2⟩, ⟨2, 20, 3, 7⟩, ⟨1, 12, 2, 9⟩,
         ⟨2, 21, 1, 1⟩] (3 / 4)).2).Perm
      [⟨1, 10, 4, 5⟩, ⟨1, 11, 5, 2⟩, ⟨2, 20, 3, 7⟩, ⟨1, 12, 2, 9⟩,
       ⟨2, 21, 1, 1⟩]
    ∧ (∀ r ∈ (python_chrono_split
        [⟨1, 10, 4, 5⟩, ⟨1, 11, 5, 2⟩, ⟨2, 20, 3, 7⟩, ⟨1, 12, 2, 9⟩,
         ⟨2, 21, 1, 1⟩] (3 / 4)).1,
        ∀ s ∈ (python_chrono_split
          [⟨1, 10, 4, 5⟩, ⟨1, 11, 5, 2⟩, ⟨2, 20, 3, 7⟩, ⟨1, 12, 2, 9⟩,
           ⟨2, 21, 1, 1⟩] (3 / 4)).2,
          r.userID = s.userID → r.timestamp ≤ s.timestamp)
    ∧ (∀ u ∈ uniqueUsers
        [⟨1, 10, 4, 5⟩, ⟨1, 11, 5, 2⟩, ⟨2, 20, 3, 7⟩, ⟨1, 12, 2, 9⟩,
         ⟨2, 21, 1, 1⟩],
        (chronoTrainUser (3 / 4)
            [⟨1, 10, 4, 5⟩, ⟨1, 11, 5, 2⟩, ⟨2, 20, 3, 7⟩, ⟨1, 12, 2, 9⟩,
             ⟨2, 21, 1, 1⟩] u).length +
          (chronoTestUser (3 / 4)
            [⟨1, 10, 4, 5⟩, ⟨1, 11, 5, 2⟩, ⟨2, 20, 3, 7⟩, ⟨1, 12, 2, 9⟩,
             ⟨2, 21, 1, 1⟩] u).length =
          (userRows
            [⟨1, 10, 4, 5⟩, ⟨1, 11, 5, 2⟩, ⟨2, 20, 3, 7⟩, ⟨1, 12, 2, 9⟩,
             ⟨2, 21, 1, 1⟩] u).length ∧
        3 * (userRows
            [⟨1, 10, 4, 5⟩, ⟨1, 11, 5, 2⟩, ⟨2, 20, 3, 7⟩, ⟨1, 12, 2, 9⟩,
             ⟨2, 21, 1, 1⟩] u).length ≤
          4 * (chronoTrainUser (3 / 4)
            [⟨1, 10, 4, 5⟩, ⟨1, 11, 5, 2⟩, ⟨2, 20, 3, 7⟩, ⟨1, 12, 2, 9⟩,
             ⟨2, 21, 1, 1⟩] u).length + 1 ∧
        4 * (chronoTrainUser (3 / 4)
            [⟨1, 10, 4, 5⟩, ⟨1, 11, 5, 2⟩, ⟨2, 20, 3, 7⟩, ⟨1, 12, 2, 9⟩,
             ⟨2, 21, 1, 1⟩] u).length ≤
          3 * (userRows
            [⟨1, 10, 4, 5⟩, ⟨1, 11, 5, 2⟩, ⟨2, 20, 3, 7⟩, ⟨1, 12, 2, 9⟩,
             ⟨2, 21, 1, 1⟩] u).length + 2) :=
  python_chrono_split_spec _

/-! ### Ranking metrics (cell-24)

`map_at_k`, `ndcg_at_k`, `precision_at_k` and `recall_at_k` come from
`recommenders.evaluation.python_evaluation`, which is not part of this
repository slice; the definitions below model them from the
specification's description as the standard ranking metrics averaged over
the test users.  The logarithmic NDCG discount is replaced by the
positive antitone discount `1 / (pos + 1)`; only positivity and
antitonicity of the discount are used. -/

/-- Modelled from the spec: the items a user interacted with in the test
set — the relevance set of the ranking metrics. -/
def relevantItems (test : DataFrame) (u : Nat) : List Nat :=
  ((test.filter (fun r => r.userID == u)).map Row.itemID).dedup

/-- Modelled from the spec: one user's recommendation list — their
predicted items by decreasing score, distinct, truncated at `k`. -/
def topKItems (preds : List PredRow) (u : Nat) (k : Nat) : List Nat :=
  ((((preds.filter (fun p => p.userID == u)).mergeSort
      (fun a b => decide (b.prediction ≤ a.prediction))).map
      PredRow.itemID).dedup).take k

/-- Modelled from the spec: how many recommended items are relevant. -/
def hits (rel rec : List Nat) : Nat :=
  rec.countP (fun i => decide (i ∈ rel))

/-- Modelled from the spec: the positional discount of DCG at 0-based
position `pos` (a positive antitone stand-in for `1 / log2 (pos + 2)`). -/
def disc (pos : Nat) : ℚ :=
  1 / ((pos : ℚ) + 1)

/-- Modelled from the spec: the average-precision numerator — at each
relevant position, precision up to that rank, accumulated with the
running position and hit count. -/
def apTerms (rel : List Nat) : List Nat → Nat → Nat → ℚ
  | [], _, _ => 0
  | i :: tl, pos, h =>
      if i ∈ rel then
        ((h : ℚ) + 1) / ((pos : ℚ) + 1) + apTerms rel tl (pos + 1) (h + 1)
      else apTerms rel tl (pos + 1) h

/-- Modelled from the spec: the DCG numerator — the discount of every
relevant position of the recommendation list. -/
def dcgTerms (rel : List Nat) : List Nat → Nat → ℚ
  | [], _ => 0
  | i :: tl, pos =>
      (if i ∈ rel then disc pos else 0) + dcgTerms rel tl (pos + 1)

/-- Modelled from the spec: the ideal DCG — the `m` largest discounts
starting at position `pos`. -/
def idcgSum : Nat → Nat → ℚ
  | 0, _ => 0
  | m + 1, pos => disc pos + idcgSum m (pos + 1)

/-- The mean of a per-user score over a list of users (0 when empty). -/
def meanOver (us : List Nat) (f : Nat → ℚ) : ℚ :=
  (us.map f).sum / (us.length : ℚ)

/-- Modelled from the spec: one user's precision@k. -/
def precisionUser (test : DataFrame) (preds : List PredRow) (k u : Nat) : ℚ :=
  (hits (relevantItems test u) (topKItems preds u k) : ℚ) / (k : ℚ)

/-- Modelled from the spec: one user's recall@k. -/
def recallUser (test : DataFrame) (preds : List PredRow) (k u : Nat) : ℚ :=
  (hits (relevantItems test u) (topKItems preds u k) : ℚ) /
    ((relevantItems test u).length : ℚ)

/-- Modelled from the spec: one user's average precision at `k`. -/
def apUser (test : DataFrame) (preds : List PredRow) (k u : Nat) : ℚ :=
  apTerms (relevantItems test u) (topKItems preds u k) 0 0 /
    ((min (relevantItems test u).length k : Nat) : ℚ)

/-- Modelled from the spec: one user's NDCG at `k`. -/
def ndcgUser (test : DataFrame) (preds : List PredRow) (k u : Nat) : ℚ :=
  dcgTerms (relevantItems test u) (topKItems preds u k) 0 /
    idcgSum (min (relevantItems test u).length k) 0

/-- Modelled from the spec: `map_at_k(test, preds, k)`. -/
def map_at_k (test : DataFrame) (preds : List PredRow) (k : Nat) : ℚ :=
  meanOver (uniqueUsers test) (apUser test preds k)

/-- Modelled from the spec: `ndcg_at_k(test, preds, k)`. -/
def ndcg_at_k (test : DataFrame) (preds : List PredRow) (k : Nat) : ℚ :=
  meanOver (uniqueUsers test) (ndcgUser test preds k)

/-- Modelled from the spec: `precision_at_k(test, preds, k)`. -/
def precision_at_k (test : DataFrame) (preds : List PredRow) (k : Nat) : ℚ :=
  meanOver (uniqueUsers test) (precisionUser test preds k)

/-- Modelled from the spec: `recall_at_k(test, preds, k)`. -/
def recall_at_k (test : DataFrame) (preds : List PredRow) (k : Nat) : ℚ :=
  meanOver (uniqueUsers test) (recallUser test preds k)

lemma div_unit {a b : ℚ} (ha : 0 ≤ a) (hab : a ≤ b) :
    0 ≤ a / b ∧ a / b ≤ 1 := by
  rcases lt_or_eq_of_le (le_trans ha hab) with hb | hb
  · exact ⟨div_nonneg ha hb.le, (div_le_one hb).mpr hab⟩
  · simp [← hb]

lemma nodup_subset_length_le {l₁ l₂ : List Nat} (h1 : l₁.Nodup)
    (h2 : l₂.Nodup) (hsub : l₁ ⊆ l₂) : l₁.length ≤ l₂.length := by
  rw [← List.toFinset_card_of_nodup h1, ← List.toFinset_card_of_nodup h2]
  exact Finset.card_le_card
    (fun a ha => List.mem_toFinset.mpr (hsub (List.mem_toFinset.mp ha)))

lemma relevantItems_nodup (test : DataFrame) (u : Nat) :
    (relevantItems test u).Nodup :=
  List.nodup_dedup _

lemma topKItems_nodup (preds : List PredRow) (u k : Nat) :
    (topKItems preds u k).Nodup :=
  List.Nodup.sublist (List.take_sublist _ _) (List.nodup_dedup _)

lemma topKItems_length_le (preds : List PredRow) (u k : Nat) :
    (topKItems preds u k).length ≤ k :=
  List.length_take_le _ _

lemma hits_le_length (rel rec : List Nat) : hits rel rec ≤ rec.length :=
  List.countP_le_length _

lemma hits_le_rel {rel rec : List Nat} (hrel : rel.Nodup)
    (hrec : rec.Nodup) : hits rel rec ≤ rel.length := by
  have hfil : (rec.filter (fun i => decide (i ∈ rel))).Nodup :=
    List.Nodup.filter _ hrec
  have hsub : (rec.filter (fun i => decide (i ∈ rel))) ⊆ rel := by
    intro i hi
    simpa using (List.mem_filter.mp hi).2
  have := nodup_subset_length_le hfil hrel hsub
  unfold hits
  rw [List.countP_eq_length_filter]
  exact this

lemma apTerms_nonneg (rel : List Nat) :
    ∀ (rec : List Nat) (pos h : Nat), 0 ≤ apTerms rel rec pos h := by
  intro rec
  induction rec with
  | nil => intro pos h; simp [apTerms]
  | cons i tl ih =>
      intro pos h
      unfold apTerms
      split
      · exact add_nonneg (div_nonneg (by positivity) (by positivity))
          (ih (pos + 1) (h + 1))
      · exact ih (pos + 1) h

lemma apTerms_le_hits (rel : List Nat) :
    ∀ (rec : List Nat) (pos h : Nat), h ≤ pos →
      apTerms rel rec pos h ≤ (hits rel rec : ℚ) := by
  intro rec
  induction rec with
  | nil => intro pos h _; simp [apTerms, hits]
  | cons i tl ih =>
      intro pos h hle
      unfold apTerms hits
      rw [List.countP_cons]
      by_cases hmem : i ∈ rel
      · have h1 : ((h : ℚ) + 1) / ((pos : ℚ) + 1) ≤ 1 := by
          apply div_le_one_of_le₀
          · exact_mod_cast Nat.succ_le_succ hle
          · positivity
        have h2 := ih (pos + 1) (h + 1) (by omega)
        simp only [hits] at h2
        simp only [hmem, if_true, decide_eq_true_eq, decide_True]
        push_cast
        linarith
      · have h2 := ih (pos + 1) h (by omega)
        simp only [hits] at h2
        simp only [hmem, if_false, decide_eq_true_eq, decide_False]
        simpa using h2

lemma disc_nonneg (pos : Nat) : 0 ≤ disc pos := by
  unfold disc
  positivity

lemma disc_anti {p q : Nat} (h : p ≤ q) : disc q ≤ disc p := by
  unfold disc
  apply one_div_le_one_div_of_le
  · positivity
  · have : (p : ℚ) ≤ (q : ℚ) := by exact_mod_cast h
    linarith

lemma idcgSum_nonneg : ∀ (m pos : Nat), 0 ≤ idcgSum m pos := by
  intro m
  induction m with
  | zero => intro pos; simp [idcgSum]
  | succ m ih =>
      intro pos
      unfold idcgSum
      exact add_nonneg (disc_nonneg pos) (ih (pos + 1))

lemma idcgSum_anti_pos : ∀ (m : Nat) {p q : Nat}, p ≤ q →
    idcgSum m q ≤ idcgSum m p := by
  intro m
  induction m with
  | zero => intro p q _; simp [idcgSum]
  | succ m ih =>
      intro p q h
      unfold idcgSum
      exact add_le_add (disc_anti h) (ih (by omega))

lemma idcgSum_mono_succ (m pos : Nat) :
    idcgSum m pos ≤ idcgSum (m + 1) pos := by
  induction m generalizing pos with
  | zero =>
      unfold idcgSum
      simpa [idcgSum] using
        add_nonneg (disc_nonneg pos) (idcgSum_nonneg 0 (pos + 1))
  | succ m ih =>
      unfold idcgSum
      exact add_le_add_left (ih (pos + 1)) _

lemma idcgSum_mono {m m' : Nat} (pos : Nat) (h : m ≤ m') :
    idcgSum m pos ≤ idcgSum m' pos := by
  induction m' with
  | zero =>
      have : m = 0 := by omega
      simp [this]
  | succ m' ih =>
      rcases Nat.lt_or_ge m (m' + 1) with hlt | hge
      · exact le_trans (ih (by omega)) (idcgSum_mono_succ m' pos)
      · have : m = m' + 1 := by omega
        simp [this]

lemma dcgTerms_nonneg (rel : List Nat) :
    ∀ (rec : List Nat) (pos : Nat), 0 ≤ dcgTerms rel rec pos := by
  intro rec
  induction rec with
  | nil => intro pos; simp [dcgTerms]
  | cons i tl ih =>
      intro pos
      unfold dcgTerms
      refine add_nonneg ?_ (ih (pos + 1))
      split
      · exact disc_nonneg pos
      · exact le_refl 0

lemma dcgTerms_le_idcg (rel : List Nat) :
    ∀ (rec : List Nat) (pos : Nat),
      dcgTerms rel rec pos ≤ idcgSum (hits rel rec) pos := by
  intro rec
  induction rec with
  | nil => intro pos; simp [dcgTerms, hits, idcgSum]
  | cons i tl ih =>
      intro pos
      unfold dcgTerms hits
      rw [List.countP_cons]
      by_cases hmem : i ∈ rel
      · simp only [hmem, if_true, decide_eq_true_eq, decide_True]
        have hstep : idcgSum (List.countP (fun i => decide (i ∈ rel)) tl + 1)
            pos = disc pos +
              idcgSum (List.countP (fun i => decide (i ∈ rel)) tl)
                (pos + 1) := rfl
        rw [hstep]
        have := ih (pos + 1)
        simp only [hits] at this
        exact add_le_add_left this _
      · simp only [hmem, if_false, decide_eq_true_eq, decide_False]
        have h1 := ih (pos + 1)
        simp only [hits] at h1
        have h2 := idcgSum_anti_pos
          (List.countP (fun i => decide (i ∈ rel)) tl)
          (show pos ≤ pos + 1 by omega)
        simpa using le_trans h1 h2

lemma sum_map_le_length (us : List Nat) (f : Nat → ℚ)
    (h : ∀ u ∈ us, f u ≤ 1) : (us.map f).sum ≤ (us.length : ℚ) := by
  induction us with
  | nil => simp
  | cons b l ih =>
      have hb := h b (List.mem_cons_self b l)
      have hl := ih (fun u hu => h u (List.mem_cons_of_mem _ hu))
      simp only [List.map_cons, List.sum_cons, List.length_cons]
      push_cast
      linarith

lemma meanOver_unit {us : List Nat} {f : Nat → ℚ}
    (h : ∀ u ∈ us, 0 ≤ f u ∧ f u ≤ 1) :
    0 ≤ meanOver us f ∧ meanOver us f ≤ 1 := by
  unfold meanOver
  refine div_unit ?_ ?_
  · exact List.sum_nonneg (by
      intro x hx
      obtain ⟨u, hu, rfl⟩ := List.mem_map.mp hx
      exact (h u hu).1)
  · exact sum_map_le_length us f (fun u hu => (h u hu).2)

lemma hits_le_min (test : DataFrame) (preds : List PredRow) (k u : Nat) :
    hits (relevantItems test u) (topKItems preds u k) ≤
      min (relevantItems test u).length k :=
  le_min
    (hits_le_rel (relevantItems_nodup test u) (topKItems_nodup preds u k))
    (le_trans (hits_le_length _ _) (topKItems_length_le preds u k))

lemma precisionUser_unit (test : DataFrame) (preds : List PredRow)
    (k u : Nat) :
    0 ≤ precisionUser test preds k u ∧ precisionUser test preds k u ≤ 1 := by
  unfold precisionUser
  refine div_unit (by positivity) ?_
  exact_mod_cast le_trans (hits_le_length _ _) (topKItems_length_le preds u k)

lemma recallUser_unit (test : DataFrame) (preds : List PredRow)
    (k u : Nat) :
    0 ≤ recallUser test preds k u ∧ recallUser test preds k u ≤ 1 := by
  unfold recallUser
  refine div_unit (by positivity) ?_
  exact_mod_cast
    hits_le_rel (relevantItems_nodup test u) (topKItems_nodup preds u k)

lemma apUser_unit (test : DataFrame) (preds : List PredRow) (k u : Nat) :
    0 ≤ apUser test preds k u ∧ apUser test preds k u ≤ 1 := by
  unfold apUser
  refine div_unit (apTerms_nonneg _ _ 0 0) ?_
  calc apTerms (relevantItems test u) (topKItems preds u k) 0 0
      ≤ (hits (relevantItems test u) (topKItems preds u k) : ℚ) :=
        apTerms_le_hits _ _ 0 0 (le_refl 0)
    _ ≤ ((min (relevantItems test u).length k : Nat) : ℚ) := by
        exact_mod_cast hits_le_min test preds k u

lemma ndcgUser_unit (test : DataFrame) (preds : List PredRow) (k u : Nat) :
    0 ≤ ndcgUser test preds k u ∧ ndcgUser test preds k u ≤ 1 := by
  unfold ndcgUser
  refine div_unit (dcgTerms_nonneg _ _ 0) ?_
  calc dcgTerms (relevantItems test u) (topKItems preds u k) 0
      ≤ idcgSum (hits (relevantItems test u) (topKItems preds u k)) 0 :=
        dcgTerms_le_idcg _ _ 0
    _ ≤ idcgSum (min (relevantItems test u).length k) 0 :=
        idcgSum_mono 0 (hits_le_min test preds k u)

/-- **C3.** For every test frame, prediction frame and cutoff, each of
the four ranking metrics lies between 0 and 1 inclusive (in particular at
the notebook's `k = TOP_K`). -/
theorem metrics_unit_interval (test : DataFrame) (preds : List PredRow)
    (k : Nat) :
    (0 ≤ map_at_k test preds k ∧ map_at_k test preds k ≤ 1)
    ∧ (0 ≤ ndcg_at_k test preds k ∧ ndcg_at_k test preds k ≤ 1)
    ∧ (0 ≤ precision_at_k test preds k ∧ precision_at_k test preds k ≤ 1)
    ∧ (0 ≤ recall_at_k test preds k ∧ recall_at_k test preds k ≤ 1) :=
  ⟨meanOver_unit (fun u _ => apUser_unit test preds k u),
   meanOver_unit (fun u _ => ndcgUser_unit test preds k u),
   meanOver_unit (fun u _ => precisionUser_unit test preds k u),
   meanOver_unit (fun u _ => recallUser_unit test preds k u)⟩

/-! ### Determinism of the seeded pipeline (cells 6, 16, 18) -/

/-- Modelled from the spec: the external NCF library components.  Each
randomized component is a deterministic function of its effective seed;
`Data` and `Model` stand for the opaque library types. -/
structure NCFLibrary (Data Model : Type) where
  buildDataset : Nat → DataFrame × DataFrame → Data
  buildModel : Nat → Data → Model
  fit : Model → Data → Model
  predict : Model → Nat → Nat → ℚ

/-- Modelled from the spec: a seeded constructor uses the seed it is
given and consults the ambient random state only when no seed is
passed. -/
def effectiveSeed (seed : Option Nat) (rng : Nat) : Nat :=
  seed.getD rng

/-- The notebook pipeline on already-downloaded data: chronological
split, test filtering, dataset and model construction with `seed=SEED`
(cells 16 and 18), fit, prediction over unseen pairs, and the four
ranking metrics at `TOP_K`.  `rng` is the ambient random state of the
run, the only source of nondeterminism. -/
def runPipeline {Data Model : Type} (lib : NCFLibrary Data Model)
    (rng : Nat) (df : DataFrame) :
    (DataFrame × DataFrame) × List PredRow × (ℚ × ℚ × ℚ × ℚ) :=
  let split := python_chrono_split df (3 / 4)
  let train := split.1
  let test := filterTest train split.2
  let data := lib.buildDataset (effectiveSeed (some SEED) rng) (train, test)
  let model := lib.buildModel (effectiveSeed (some SEED) rng) data
  let fitted := lib.fit model data
  let preds := allPredictions train (lib.predict fitted)
  ((train, test), preds,
   (map_at_k test preds TOP_K, ndcg_at_k test preds TOP_K,
    precision_at_k test preds TOP_K, recall_at_k test preds TOP_K))

/-- **C10.** With the single fixed seed `SEED = 42` passed to both the
dataset and the model constructor, two runs of the pipeline on the same
downloaded data agree on everything — the split artifacts, the
prediction frame and the four metric values — whatever the ambient
random states of the two runs were. -/
theorem runPipeline_deterministic {Data Model : Type}
    (lib : NCFLibrary Data Model) (df : DataFrame) (rng₁ rng₂ : Nat) :
    runPipeline lib rng₁ df = runPipeline lib rng₂ df :=
  rfl

end NCFMovieLens
